import Mathlib

/-!
Verification of the facevital PPG signal-processing pipeline.

Shallow embedding of the TypeScript sources:
  - src/lib/ppg-processor.ts   (class PPGSignalProcessor)
  - src/lib/biomarkers.ts      (pure biomarker derivation functions)
  - app/api/biomarkers/route.ts (the POST endpoint)

Modelling conventions:
  - JavaScript numbers are modelled as exact rationals (Rat).  All the
    arithmetic used by the sources (+, -, *, /, min, max, abs, floor,
    Math.round) is exact on the inputs the claims are about.
  - Mutable class state becomes an explicit PPGState record; a method
    that mutates state and returns a number becomes a function
    PPGState -> PPGState × Rat.
  - Ambient effects are explicit inputs: Date.now() becomes a `now`
    parameter, Math.random() draws become explicit rational parameters,
    Math.sqrt becomes a function parameter `sqrtFn` (it is only reached
    by code paths none of the claims evaluate numerically).
  - Array.prototype.shift is List.drop 1, push is `++ [x]`,
    slice(-w) for 0 < w ≤ length is `drop (length - w)`.
-/

namespace FaceVital

/-- JavaScript Math.round: round half up, i.e. floor (x + 1/2). -/
def jround (q : ℚ) : ℤ := ⌊q + 1/2⌋

/-- An integer lower/upper bound survives JS Math.round. -/
theorem jround_bounds (a b : ℤ) (q : ℚ) (h1 : (a : ℚ) ≤ q) (h2 : q ≤ (b : ℚ)) :
    a ≤ jround q ∧ jround q ≤ b := by
  unfold jround
  constructor
  · exact Int.le_floor.mpr (by linarith)
  · have : ⌊q + 1/2⌋ ≤ ⌊(b : ℚ) + 1/2⌋ := Int.floor_le_floor (by linarith)
    have hb : ⌊(b : ℚ) + 1/2⌋ = b := by
      rw [Int.floor_int_add]
      norm_num
    omega

/-- Insert into an ascending list; building block of `jsort`. -/
def sortInsert (x : ℚ) : List ℚ → List ℚ
  | [] => [x]
  | y :: ys => if x ≤ y then x :: y :: ys else y :: sortInsert x ys

/-- Ascending insertion sort, modelling `[...a].sort((a, b) => a - b)`
(for rational values the ascending result is unique, so the choice of
sorting algorithm is immaterial). -/
def jsort (l : List ℚ) : List ℚ := l.foldr sortInsert []

/-- JS `Math.max(...l)` for nonempty `l` (the empty case, -Infinity in JS,
is never reached on the paths the claims exercise; we return 0 there). -/
def listMax : List ℚ → ℚ
  | [] => 0
  | x :: xs => xs.foldl max x

/-- JS `Math.min(...l)` for nonempty `l` (empty case as in `listMax`). -/
def listMin : List ℚ → ℚ
  | [] => 0
  | x :: xs => xs.foldl min x

/-- Sum of `l[a], l[a+1], ..., l[b-1]`, the pattern
`for (j = a; j < b; j++) sum += l[j]`. -/
def sumRange (l : List ℚ) (a b : ℕ) : ℚ := ((l.drop a).take (b - a)).sum

namespace PPG

/-- maxBufferSize: 60 seconds at 30 fps (ppg-processor.ts line 28). -/
def maxBufferSize : ℕ := 1800

/-- samplingRate in Hz (ppg-processor.ts line 29). -/
def samplingRate : ℕ := 30

/-- heartRateWindow10s = 300 samples (line 32). -/
def heartRateWindow10s : ℕ := 300

/-- heartRateWindow4s = 120 samples (line 33). -/
def heartRateWindow4s : ℕ := 120

/-- The RGBA pixel buffer handed to addFrame: `data[idx]` is a byte of the
row-major RGBA array (4 bytes per pixel). -/
structure ImageData where
  width : ℕ
  height : ℕ
  data : ℕ → ℕ

/-- Face region of interest rectangle, pixel coordinates (may be fractional). -/
structure FaceROI where
  x : ℚ
  y : ℚ
  width : ℚ
  height : ℚ

/-- Result record of extractROIColor. -/
structure ROIColor where
  r : ℚ
  g : ℚ
  b : ℚ
  valid : Bool

/-- The indices `a, a + 2, a + 4, ...` strictly below `b`: the stride-2
pixel sampling loops `for (v = a; v < b; v += 2)`. -/
def stride2 (a : ℕ) (b : ℤ) : List ℕ :=
  (List.range (((b - (a : ℤ)).toNat + 1) / 2)).map (fun k => a + 2 * k)

/-- extractROIColor (ppg-processor.ts lines 48-91): average R/G/B over the
stride-2 sampled, alpha > 200 pixels of the ROI clamped to the frame. -/
def extractROIColor (img : ImageData) (roi : FaceROI) : ROIColor :=
  let x1 : ℕ := (max 0 ⌊roi.x⌋).toNat
  let y1 : ℕ := (max 0 ⌊roi.y⌋).toNat
  let x2 : ℤ := min (img.width : ℤ) ⌊roi.x + roi.width⌋
  let y2 : ℤ := min (img.height : ℤ) ⌊roi.y + roi.height⌋
  let idxs : List ℕ :=
    (stride2 y1 y2).flatMap (fun y =>
      (stride2 x1 x2).map (fun x => (y * img.width + x) * 4))
  let kept : List ℕ := idxs.filter (fun idx => 200 < img.data (idx + 3))
  let pixelCount : ℕ := kept.length
  if pixelCount = 0 then
    { r := 0, g := 0, b := 0, valid := false }
  else
    { r := (kept.map (fun idx => (img.data idx : ℚ))).sum / pixelCount
      g := (kept.map (fun idx => (img.data (idx + 1) : ℚ))).sum / pixelCount
      b := (kept.map (fun idx => (img.data (idx + 2) : ℚ))).sum / pixelCount
      valid := true }

/-- extractPPGSignal (lines 97-114): chrominance signal
`g/255 - (r/255 + b/255)/2`, or 0 on an invalid ROI. -/
def extractPPGSignal (img : ImageData) (roi : FaceROI) : ℚ :=
  let colors := extractROIColor img roi
  if colors.valid = false then 0
  else colors.g / 255 - (colors.r / 255 + colors.b / 255) / 2

/-- The mutable fields of class PPGSignalProcessor (lines 23-42). -/
structure PPGState where
  signalBuffer : List ℚ
  rBuffer : List ℚ
  gBuffer : List ℚ
  bBuffer : List ℚ
  timestampBuffer : List ℚ
  heartRateHistory : List ℚ
  breathingRateHistory : List ℚ
  hrvHistory : List ℚ
  lastPeakIndex : ℤ
  peakIndices : List ℕ

/-- A freshly constructed PPGSignalProcessor. -/
def initState : PPGState :=
  { signalBuffer := [], rBuffer := [], gBuffer := [], bBuffer := []
    timestampBuffer := [], heartRateHistory := [], breathingRateHistory := []
    hrvHistory := [], lastPeakIndex := -1, peakIndices := [] }

/-- addFrame (lines 119-137): push signal, channels and Date.now()
timestamp, then shift all five buffers once size exceeds capacity. -/
def addFrame (s : PPGState) (img : ImageData) (roi : FaceROI) (now : ℚ) : PPGState :=
  let signal := extractPPGSignal img roi
  let colors := extractROIColor img roi
  let s1 : PPGState :=
    { s with
      signalBuffer := s.signalBuffer ++ [signal]
      rBuffer := s.rBuffer ++ [colors.r]
      gBuffer := s.gBuffer ++ [colors.g]
      bBuffer := s.bBuffer ++ [colors.b]
      timestampBuffer := s.timestampBuffer ++ [now] }
  if maxBufferSize < s1.signalBuffer.length then
    { s1 with
      signalBuffer := s1.signalBuffer.drop 1
      rBuffer := s1.rBuffer.drop 1
      gBuffer := s1.gBuffer.drop 1
      bBuffer := s1.bBuffer.drop 1
      timestampBuffer := s1.timestampBuffer.drop 1 }
  else s1

/-- reset (lines 679-691): every mutable field is set back to its
initial value. -/
def reset (_s : PPGState) : PPGState := initState

/-- getBufferSize (lines 665-667). -/
def getBufferSize (s : PPGState) : ℕ := s.signalBuffer.length

/-- detrendSignal (lines 249-269): subtract the local mean over a
±2-second window (windowSize = floor(samplingRate * 2) = 60). -/
def detrendSignal (signal : List ℚ) : List ℚ :=
  if signal.length < 10 then signal
  else
    (List.range signal.length).map (fun i =>
      let start := i - 60
      let stop := min signal.length (i + 60)
      signal.getD i 0 - sumRange signal start stop / ((stop - start : ℕ) : ℚ))

/-- bandpassFilterHeartRate (lines 275-307): 3-sample moving average,
then subtraction of a trailing 40-sample mean
(lowCutoffWindow = floor(samplingRate / 0.75) = 40). -/
def bandpassFilterHeartRate (signal : List ℚ) : List ℚ :=
  if signal.length < 10 then signal
  else
    let smoothed : List ℚ :=
      (List.range signal.length).map (fun i =>
        let start := i - 1
        let stop := min signal.length (i + 2)
        sumRange signal start stop / ((stop - start : ℕ) : ℚ))
    (List.range smoothed.length).map (fun i =>
      let start := i - 40
      smoothed.getD i 0 - sumRange smoothed start (i + 1) / ((i + 1 - start : ℕ) : ℚ))

/-- normalizeSignal (lines 312-322): min-max scale to [0,1], constant 1/2
when the range is below the 0.0001 epsilon. -/
def normalizeSignal (signal : List ℚ) : List ℚ :=
  match signal with
  | [] => []
  | _ :: _ =>
    let mn := listMin signal
    let mx := listMax signal
    let range := mx - mn
    if range < 1/10000 then signal.map (fun _ => 1/2)
    else signal.map (fun v => (v - mn) / range)

/-- The adaptive threshold of detectPeaksAdvanced (lines 334-335):
the 50th percentile `sorted[Math.floor(sorted.length * 0.5)]`. -/
def peakThreshold (signal : List ℚ) : ℚ :=
  (jsort signal).getD (signal.length / 2) 0

/-- One candidate index of the peak scan loop (lines 345-368): above
threshold and a strict local maximum over ±3 samples. -/
def isPeakCandidate (signal : List ℚ) (threshold : ℚ) (i : ℕ) : Bool :=
  let val := signal.getD i 0
  decide (threshold ≤ val) &&
  decide (signal.getD (i - 1) 0 < val) && decide (signal.getD (i + 1) 0 < val) &&
  decide (signal.getD (i - 2) 0 < val) && decide (signal.getD (i + 2) 0 < val) &&
  decide (signal.getD (i - 3) 0 < val) && decide (signal.getD (i + 3) 0 < val)

/-- The scan loop of detectPeaksAdvanced (lines 342-368).  `fuel` is a
structural bound on the number of iterations: every iteration increases
`i` by one and the loop exits once `i + 3` reaches the length, so any
fuel ≥ length suffices (`scanPeaks_fuel` below); callers pass
`signal.length + 1`. -/
def scanPeaks (signal : List ℚ) (threshold : ℚ) (minDist : ℕ) :
    ℕ → ℕ → ℤ → List ℕ
  | 0, _, _ => []
  | fuel + 1, i, lastPeakIdx =>
    if i + 3 < signal.length then
      if isPeakCandidate signal threshold i ∧ lastPeakIdx + minDist ≤ (i : ℤ) then
        i :: scanPeaks signal threshold minDist fuel (i + 1) (i : ℤ)
      else
        scanPeaks signal threshold minDist fuel (i + 1) lastPeakIdx
    else []

/-- detectPeaksAdvanced (lines 328-371).  minPeakDistance =
floor(samplingRate * 0.3) = 9 samples (200 BPM ceiling); the scan starts
at i = 3 with lastPeakIdx = -minPeakDistance. -/
def detectPeaksAdvanced (signal : List ℚ) : List ℕ :=
  if signal.length < 10 then []
  else scanPeaks signal (peakThreshold signal) 9 (signal.length + 1) 3 (-9)

/-- calculateIBIs (lines 376-385): consecutive differences of peak
indices. -/
def calculateIBIs (peaks : List ℕ) : List ℚ :=
  (peaks.zip (peaks.drop 1)).map (fun p => (p.2 : ℚ) - (p.1 : ℚ))

/-- The median as computed at lines 395-396: `sorted[floor(length/2)]`. -/
def medianOf (l : List ℚ) : ℚ := (jsort l).getD (l.length / 2) 0

/-- The median absolute deviation as computed at lines 399-401. -/
def madOf (l : List ℚ) : ℚ := medianOf (l.map (fun v => |v - medianOf l|))

/-- filterOutlierIBIs (lines 391-417): keep intervals within 2.5 MAD of
the median; keep everything when MAD = 0 or fewer than two intervals. -/
def filterOutlierIBIs (ibis : List ℚ) : List ℚ :=
  if ibis.length < 2 then ibis
  else
    let median := medianOf ibis
    let mad := madOf ibis
    if mad = 0 then ibis
    else ibis.filter (fun v => decide (|v - median| ≤ 5/2 * mad))

/-- isPhysiologicallyValid (lines 422-446): inside [45,200] and, when a
history exists, within 25 BPM of the plain arithmetic mean of
heartRateHistory. -/
def isPhysiologicallyValid (s : PPGState) (heartRate : ℚ) : Bool :=
  if heartRate < 45 ∨ 200 < heartRate then false
  else if 0 < s.heartRateHistory.length then
    if 25 < |heartRate -
        s.heartRateHistory.sum / (s.heartRateHistory.length : ℚ)| then false
    else true
  else true

/-- The history update pattern shared by the three smoothing methods:
push when the new value is positive, then shift once the history exceeds
its capacity. -/
def pushCap (cap : ℕ) (hist : List ℚ) (v : ℚ) : List ℚ :=
  if 0 < v then
    let h := hist ++ [v]
    if cap < h.length then h.drop 1 else h
  else hist

/-- The weighted sums of the loop at lines 464-471: element at index i
weighs 2^i, so `wsum (x :: xs) = (x + 2 * wsumFst xs, 1 + 2 * wsumSnd xs)`.
Returns (weightedSum, weightSum). -/
def wsum : List ℚ → ℚ × ℚ
  | [] => (0, 0)
  | x :: xs => (x + 2 * (wsum xs).1, 1 + 2 * (wsum xs).2)

/-- The value returned by getSmoothedHeartRate after the history update
(lines 461-473): 0 on an empty history, else the rounded exponentially
weighted average. -/
def emaOut (hist : List ℚ) : ℚ :=
  if hist.length = 0 then 0 else ((jround ((wsum hist).1 / (wsum hist).2) : ℤ) : ℚ)

/-- getSmoothedHeartRate (lines 451-474): capacity-6 history push, then
exponentially weighted moving average. -/
def getSmoothedHeartRate (s : PPGState) (newValue : ℚ) : PPGState × ℚ :=
  let hist := pushCap 6 s.heartRateHistory newValue
  ({ s with heartRateHistory := hist }, emaOut hist)

/-- The value returned after the history update by the simple-average
smoothers (getSmoothedBreathingRate lines 626-629, getSmoothedHRV lines
531-534): 0 on an empty history, else the rounded arithmetic mean. -/
def meanOut (hist : List ℚ) : ℚ :=
  if hist.length = 0 then 0
  else ((jround (hist.sum / (hist.length : ℚ)) : ℤ) : ℚ)

/-- getSmoothedBreathingRate (lines 618-630): capacity-3 history push,
then simple moving average. -/
def getSmoothedBreathingRate (s : PPGState) (newValue : ℚ) : PPGState × ℚ :=
  let hist := pushCap 3 s.breathingRateHistory newValue
  ({ s with breathingRateHistory := hist }, meanOut hist)

/-- getSmoothedHRV (lines 523-535): capacity-5 history push, then simple
moving average. -/
def getSmoothedHRV (s : PPGState) (newValue : ℚ) : PPGState × ℚ :=
  let hist := pushCap 5 s.hrvHistory newValue
  ({ s with hrvHistory := hist }, meanOut hist)

/-- calculateHeartRateForWindow (lines 166-243).  The method mutates the
session only through getSmoothedHeartRate; the pair is (new state,
returned BPM).  Callers pass windowSize = 300 or 120, so
`slice(-windowSize)` is `drop (length - windowSize)`. -/
def calculateHeartRateForWindow (s : PPGState) (windowSize : ℕ) : PPGState × ℚ :=
  if s.signalBuffer.length < windowSize then (s, 0)
  else
    let recentSignal := s.signalBuffer.drop (s.signalBuffer.length - windowSize)
    let detrended := detrendSignal recentSignal
    let filtered := bandpassFilterHeartRate detrended
    let normalized := normalizeSignal filtered
    let peaks := detectPeaksAdvanced normalized
    if peaks.length < 2 then getSmoothedHeartRate s 0
    else
      let ibis := calculateIBIs peaks
      if ibis.length = 0 then getSmoothedHeartRate s 0
      else
        let validIBIs := filterOutlierIBIs ibis
        if validIBIs.length = 0 then getSmoothedHeartRate s 0
        else
          let avgIBI := validIBIs.sum / (validIBIs.length : ℚ)
          let beatDuration := avgIBI / (samplingRate : ℚ)
          let heartRate := max 45 (min 200 (60 / beatDuration))
          if isPhysiologicallyValid s heartRate = false then
            getSmoothedHeartRate s 0
          else getSmoothedHeartRate s ((jround heartRate : ℤ) : ℚ)

/-- getHeartRate10s (lines 143-145). -/
def getHeartRate10s (s : PPGState) : PPGState × ℚ :=
  calculateHeartRateForWindow s heartRateWindow10s

/-- getHeartRate4s (lines 151-153). -/
def getHeartRate4s (s : PPGState) : PPGState × ℚ :=
  calculateHeartRateForWindow s heartRateWindow4s

/-- getHeartRate (lines 158-160): the 10-second window. -/
def getHeartRate (s : PPGState) : PPGState × ℚ := getHeartRate10s s

/-- getHRV (lines 480-521).  Math.sqrt is the explicit parameter
`sqrtFn`; everything else is exact rational arithmetic. -/
def getHRV (sqrtFn : ℚ → ℚ) (s : PPGState) : PPGState × ℚ :=
  if s.signalBuffer.length < 300 then (s, 0)
  else
    let windowSize := min 600 s.signalBuffer.length
    let recentSignal := s.signalBuffer.drop (s.signalBuffer.length - windowSize)
    let detrended := detrendSignal recentSignal
    let filtered := bandpassFilterHeartRate detrended
    let normalized := normalizeSignal filtered
    let peaks := detectPeaksAdvanced normalized
    if peaks.length < 3 then getSmoothedHRV s 0
    else
      let rrIntervals := (calculateIBIs peaks).map
        (fun interval => interval / (samplingRate : ℚ) * 1000)
      if rrIntervals.length < 2 then getSmoothedHRV s 0
      else
        let mean := rrIntervals.sum / (rrIntervals.length : ℚ)
        let variance :=
          (rrIntervals.map (fun interval => (interval - mean) ^ 2)).sum /
            (rrIntervals.length : ℚ)
        let sdnn := sqrtFn variance
        let hrv := min 100 (max 0 (sdnn / 100 * 100))
        getSmoothedHRV s ((jround hrv : ℤ) : ℚ)

/-- lowPassFilterBreathing (lines 575-590): trailing 2-second
(60-sample) moving average. -/
def lowPassFilterBreathing (signal : List ℚ) : List ℚ :=
  (List.range signal.length).map (fun i =>
    let start := i - 60
    let stop := min signal.length (i + 1)
    sumRange signal start stop / ((stop - start : ℕ) : ℚ))

/-- The inner neighborhood test of detectBreathingPeaks (lines 601-607):
strictly above every sample within minPeakDistance on both sides. -/
def isBreathingPeak (signal : List ℚ) (minDist : ℕ) (i : ℕ) : Bool :=
  (List.range minDist).all (fun j =>
    decide (signal.getD (i - (j + 1)) 0 < signal.getD i 0) &&
    decide (signal.getD (i + (j + 1)) 0 < signal.getD i 0))

/-- The scan loop of detectBreathingPeaks (lines 599-613): after an
accepted peak at i the loop does `i += minPeakDistance` and then `i++`.
`fuel` structurally bounds the iteration count: every iteration
increases `i` by at least one and the loop exits once `i` reaches
`length - minPeakDistance`, so any fuel ≥ length suffices
(`breathingScan_fuel` below); callers pass `signal.length + 1`. -/
def breathingScan (signal : List ℚ) (minDist : ℕ) : ℕ → ℕ → List ℕ
  | 0, _ => []
  | fuel + 1, i =>
    if i + minDist < signal.length then
      if 1/2 < signal.getD i 0 ∧ isBreathingPeak signal minDist i then
        i :: breathingScan signal minDist fuel (i + minDist + 1)
      else breathingScan signal minDist fuel (i + 1)
    else []

/-- detectBreathingPeaks (lines 592-616): fixed threshold 0.5, scan from
i = minPeakDistance. -/
def detectBreathingPeaks (signal : List ℚ) (minPeakDistance : ℕ) : List ℕ :=
  breathingScan signal minPeakDistance (signal.length + 1) minPeakDistance

/-- getBreathingRate (lines 540-573).  minPeakDistance =
floor(samplingRate * 2) = 60; the average interval over peaks is the sum
of consecutive differences divided by (peaks - 1). -/
def getBreathingRate (s : PPGState) : PPGState × ℚ :=
  if s.signalBuffer.length < 180 then (s, 0)
  else
    let windowSize := min 600 s.signalBuffer.length
    let recentSignal := s.signalBuffer.drop (s.signalBuffer.length - windowSize)
    let lowPassFiltered := lowPassFilterBreathing recentSignal
    let normalized := normalizeSignal lowPassFiltered
    let peaks := detectBreathingPeaks normalized 60
    if peaks.length < 2 then getSmoothedBreathingRate s 0
    else
      let totalInterval := (calculateIBIs peaks).sum
      let avgInterval := totalInterval / ((peaks.length - 1 : ℕ) : ℚ)
      let breathPeriod := avgInterval / (samplingRate : ℚ)
      let breathingRate := max 8 (min 30 (60 / breathPeriod))
      getSmoothedBreathingRate s ((jround breathingRate : ℤ) : ℚ)

/-- One observed frame submission: pixel buffer, ROI and the Date.now()
value at the call. -/
def Frame : Type := ImageData × FaceROI × ℚ

/-- The signal sample a frame contributes to the buffer. -/
def sampleOf (f : Frame) : ℚ := extractPPGSignal f.1 f.2.1

/-- Run a sequence of addFrame calls. -/
def runAddFrames (s : PPGState) (frames : List Frame) : PPGState :=
  frames.foldl (fun st fr => addFrame st fr.1 fr.2.1 fr.2.2) s

/-- The operations a caller can perform on a session: frame submission,
the metric getters (which mutate the smoothing histories) and reset. -/
inductive SessionOp where
  | frame (img : ImageData) (roi : FaceROI) (now : ℚ)
  | queryHR
  | queryHR4
  | queryBR
  | queryHRV (sqrtFn : ℚ → ℚ)
  | doReset

/-- State transition of one session operation (getter return values are
discarded; their state mutation is kept). -/
def stepOp (s : PPGState) : SessionOp → PPGState
  | .frame img roi now => addFrame s img roi now
  | .queryHR => (getHeartRate s).1
  | .queryHR4 => (getHeartRate4s s).1
  | .queryBR => (getBreathingRate s).1
  | .queryHRV sqrtFn => (getHRV sqrtFn s).1
  | .doReset => reset s

/-- Run a sequence of session operations. -/
def runOps (s : PPGState) (ops : List SessionOp) : PPGState :=
  ops.foldl stepOp s

/-- The smoothing-history invariant: every stored heart-rate value lies
in [45,200] and every stored breathing-rate value in [8,30]. -/
def histInv (s : PPGState) : Prop :=
  (∀ x ∈ s.heartRateHistory, 45 ≤ x ∧ x ≤ 200) ∧
  (∀ x ∈ s.breathingRateHistory, 8 ≤ x ∧ x ≤ 30)

/-- The five parallel buffers have equal lengths. -/
def buffersAligned (s : PPGState) : Prop :=
  s.rBuffer.length = s.signalBuffer.length ∧
  s.gBuffer.length = s.signalBuffer.length ∧
  s.bBuffer.length = s.signalBuffer.length ∧
  s.timestampBuffer.length = s.signalBuffer.length

end PPG

namespace Biomarkers

/-- BiomarkerData (biomarkers.ts lines 3-13). -/
structure BiomarkerData where
  heartRate : ℚ
  breathingRate : ℚ
  hrv : ℚ
  sysBP : ℚ
  diaBP : ℚ
  parasympatheticHealth : ℚ
  wellnessValue : ℚ
  stressIndex : ℚ
  timestamp : ℚ
deriving DecidableEq

/-- detectPeaks (biomarkers.ts lines 27-39): indices 1 ≤ i ≤ length - 2
strictly above the threshold and both immediate neighbors. -/
def detectPeaks (signal : List ℚ) (threshold : ℚ) : List ℕ :=
  (List.range' 1 (signal.length - 2)).filter (fun i =>
    decide (threshold < signal.getD i 0) &&
    decide (signal.getD (i - 1) 0 < signal.getD i 0) &&
    decide (signal.getD (i + 1) 0 < signal.getD i 0))

/-- Sum of consecutive peak-index differences — the
`totalInterval += peaks[i] - peaks[i-1]` loops. -/
def sumDiffs (peaks : List ℕ) : ℚ :=
  ((peaks.zip (peaks.drop 1)).map (fun p => (p.2 : ℚ) - (p.1 : ℚ))).sum

/-- calculateHeartRate (lines 42-63): threshold at 70% of the maximum,
average peak interval, clamp to [40,200] and round. -/
def calculateHeartRate (signal : List ℚ) (samplingRate : ℚ) : ℚ :=
  let threshold := listMax signal * (7/10)
  let peaks := detectPeaks signal threshold
  if peaks.length < 2 then 0
  else
    let avgInterval := sumDiffs peaks / ((peaks.length - 1 : ℕ) : ℚ)
    let heartRate := samplingRate / avgInterval * 60
    ((jround (max 40 (min 200 heartRate)) : ℤ) : ℚ)

/-- calculateHRV (lines 66-78): SDNN of the RR intervals, scaled by 0.5,
clamped to [0,100], rounded.  Math.sqrt is the parameter `sqrtFn`. -/
def calculateHRV (sqrtFn : ℚ → ℚ) (rRIntervals : List ℚ) : ℚ :=
  if rRIntervals.length < 2 then 0
  else
    let mean := rRIntervals.sum / (rRIntervals.length : ℚ)
    let variance :=
      (rRIntervals.map (fun interval => (interval - mean) ^ 2)).sum /
        (rRIntervals.length : ℚ)
    let sdnn := sqrtFn variance
    ((jround (max 0 (min 100 (sdnn * (1/2)))) : ℤ) : ℚ)

/-- estimateBloodPressure (lines 81-101); returns (systolic, diastolic). -/
def estimateBloodPressure (heartRate : ℚ) (signal : List ℚ)
    (ageEstimate : ℚ) : ℚ × ℚ :=
  let signalAmplitude := listMax signal - listMin signal
  let systolic :=
    90 + (heartRate - 60) * (3/10) + signalAmplitude * 30 +
      (ageEstimate - 30) * (4/10)
  let diastolic :=
    60 + (heartRate - 60) * (15/100) + signalAmplitude * 15 +
      (ageEstimate - 30) * (2/10)
  (((jround (max 80 (min 180 systolic)) : ℤ) : ℚ),
   ((jround (max 50 (min 120 diastolic)) : ℤ) : ℚ))

/-- The envelope window start offsets of calculateBreathingRate (lines
112-119): the loop `for (i = 0; i < length - windowSize; i += windowSize/2)`
visits i = k·ws/2 (fractional when ws is odd; Array.slice truncates), so
the k-th window starts at floor(k·ws/2) and spans ws samples.  The
iteration count is ceil(2(length-ws)/ws).  For ws ≤ 0 the source loop
never terminates (or never runs); we model no iterations and restrict
theorems to samplingRate ≥ 1. -/
def envelopeStarts (len ws : ℕ) : List ℕ :=
  if ws = 0 then []
  else (List.range ((2 * (len - ws) + ws - 1) / ws)).map (fun k => k * ws / 2)

/-- calculateBreathingRate (lines 104-143).  The Math.random() draw of the
`peaks < 2` fallback branch is the explicit parameter `rand`. -/
def calculateBreathingRate (signal : List ℚ) (samplingRate : ℚ) (rand : ℚ) : ℚ :=
  let windowSize : ℤ := ⌊samplingRate * 2⌋
  let ws : ℕ := windowSize.toNat
  let envelopes : List ℚ :=
    (envelopeStarts signal.length ws).map (fun st =>
      let w := (signal.drop st).take ws
      listMax w - listMin w)
  if envelopes.length < 2 then 0
  else
    let mx := listMax envelopes
    let peaks := detectPeaks (envelopes.map (fun e => e / mx)) (4/10)
    if peaks.length < 2 then 12 + rand * 8
    else
      let avgInterval := sumDiffs peaks / ((peaks.length - 1 : ℕ) : ℚ)
      let breathingRate := samplingRate / (avgInterval * 2) * 60
      ((jround (max 8 (min 30 breathingRate)) : ℤ) : ℚ)

/-- calculateParasympatheticHealth (lines 146-157); the `signal`
parameter of the source is unused there and omitted here. -/
def calculateParasympatheticHealth (hrv heartRate : ℚ) : ℚ :=
  let hrvScore := hrv / 100 * 50
  let hrScore := max 0 ((100 - |heartRate - 60| / 2) * (1/2))
  max 0 (min 100 ((jround (hrvScore + hrScore) : ℤ) : ℚ))

/-- calculateWellnessValue (lines 160-182). -/
def calculateWellnessValue (heartRate breathingRate hrv sysBP
    parasympatheticHealth : ℚ) : ℚ :=
  let hrScore := max 0 (100 - |heartRate - 65| / (3/2))
  let brScore := max 0 (100 - |breathingRate - 16| / (8/10))
  let hrvScore := hrv / 100 * 100
  let bpScore := max 0 (100 - |sysBP - 120| / (3/2))
  let wellness :=
    hrScore * (2/10) + brScore * (15/100) + hrvScore * (25/100) +
      bpScore * (2/10) + parasympatheticHealth * (2/10)
  ((jround (max 0 (min 100 wellness)) : ℤ) : ℚ)

/-- calculateStressIndex (lines 185-203). -/
def calculateStressIndex (heartRate breathingRate hrv
    parasympatheticHealth : ℚ) : ℚ :=
  let hrStress := |heartRate - 65| / (3/2)
  let brStress := |breathingRate - 16| / (8/10)
  let hrvStress := (100 - hrv) / 2
  let psStress := 100 - parasympatheticHealth
  ((jround (max 0 (min 100
    (hrStress * (25/100) + brStress * (25/100) + hrvStress * (25/100) +
      psStress * (25/100)))) : ℤ) : ℚ)

/-- calculateBiomarkers (lines 206-259).  Ambient effects surfaced as
parameters: `sqrtFn` is Math.sqrt, `randBR` the Math.random() draw
available to calculateBreathingRate, `randRR k` the k-th of the five
Math.random() draws perturbing the synthetic RR intervals, `now` is
Date.now(). -/
def calculateBiomarkers (signal : List ℚ) (samplingRate : ℚ)
    (sqrtFn : ℚ → ℚ) (randBR : ℚ) (randRR : ℕ → ℚ) (now : ℚ) : BiomarkerData :=
  let heartRate := calculateHeartRate signal samplingRate
  let breathingRate := calculateBreathingRate signal samplingRate randBR
  let rrInterval := 60 / max heartRate 1 * 1000
  let rRIntervals :=
    (List.range 5).map (fun k => rrInterval * (95/100 + randRR k * (1/10)))
  let hrv := calculateHRV sqrtFn rRIntervals
  let bp := estimateBloodPressure heartRate signal 35
  let parasympatheticHealth := calculateParasympatheticHealth hrv heartRate
  { heartRate := heartRate
    breathingRate := breathingRate
    hrv := hrv
    sysBP := bp.1
    diaBP := bp.2
    parasympatheticHealth := parasympatheticHealth
    wellnessValue :=
      calculateWellnessValue heartRate breathingRate hrv bp.1
        parasympatheticHealth
    stressIndex :=
      calculateStressIndex heartRate breathingRate hrv parasympatheticHealth
    timestamp := now }

end Biomarkers

namespace Api

/-- The parsed JSON body of POST /api/biomarkers
(app/api/biomarkers/route.ts lines 618-619).  `signal = none` models a
missing or non-array `signal` field (the `!signal || !Array.isArray`
guard); `samplingRate` carries the destructuring default 30. -/
structure BiomarkersRequest where
  signal : Option (List ℚ)
  samplingRate : ℚ

/-- The responses the POST handler can produce: a 200 JSON payload or a
400 JSON error.  The handler is a total function into this type — every
rejected request is a structured response, not an exception. -/
inductive ApiResponse where
  | ok (data : Biomarkers.BiomarkerData) (signalLength : ℕ) (samplingRate : ℚ)
  | badRequest (error : String)
deriving DecidableEq

/-- Status code of a response: 200 for ok, 400 for badRequest. -/
def ApiResponse.status : ApiResponse → ℕ
  | .ok _ _ _ => 200
  | .badRequest _ => 400

/-- POST /api/biomarkers (route.ts lines 616-657): validate the signal
array, reject fewer than 5 samples with a 400 error, otherwise compute
biomarkers.  Ambient parameters as in `Biomarkers.calculateBiomarkers`. -/
def POST (body : BiomarkersRequest) (sqrtFn : ℚ → ℚ) (randBR : ℚ)
    (randRR : ℕ → ℚ) (now : ℚ) : ApiResponse :=
  match body.signal with
  | none => .badRequest "Invalid signal data. Expected array of numbers."
  | some signal =>
    if signal.length < 5 then
      .badRequest "Insufficient signal data. Need at least 5 samples."
    else
      .ok (Biomarkers.calculateBiomarkers signal body.samplingRate sqrtFn
            randBR randRR now)
        signal.length body.samplingRate

end Api

/-! ## Theorems -/

/-- C8: immediately after reset() the session is exactly a freshly
constructed one: getBufferSize() is 0 and getHeartRate(),
getBreathingRate() and getHRV() all return the unavailable sentinel 0,
whatever the prior state `s` and whatever function `f` models Math.sqrt. -/
theorem reset_clears_state (s : PPG.PPGState) (f : ℚ → ℚ) :
    PPG.reset s = PPG.initState ∧
    PPG.getBufferSize (PPG.reset s) = 0 ∧
    (PPG.getHeartRate (PPG.reset s)).2 = 0 ∧
    (PPG.getBreathingRate (PPG.reset s)).2 = 0 ∧
    (PPG.getHRV f (PPG.reset s)).2 = 0 :=
  ⟨rfl, rfl, rfl, rfl, rfl⟩

/-- C6: filterOutlierIBIs keeps exactly the intervals within 2.5 MAD of
the median (everything when MAD = 0), and on [20,21,19,20,80,20] it
drops the 80 and keeps the other five values in order. -/
theorem filterOutlierIBIs_spec :
    (∀ ibis : List ℚ, 2 ≤ ibis.length →
      PPG.filterOutlierIBIs ibis =
        if PPG.madOf ibis = 0 then ibis
        else ibis.filter (fun v =>
          decide (|v - PPG.medianOf ibis| ≤ 5/2 * PPG.madOf ibis))) ∧
    PPG.filterOutlierIBIs [20, 21, 19, 20, 80, 20] = [20, 21, 19, 20, 20] := by
  constructor
  · intro ibis h
    unfold PPG.filterOutlierIBIs
    rw [if_neg (by omega)]
  · norm_num [PPG.filterOutlierIBIs, PPG.madOf, PPG.medianOf, jsort,
      sortInsert, List.filter]

/-- Witness for C6: the characterization applied at the concrete
interval list of the claim. -/
theorem filterOutlierIBIs_spec_witness :
    2 ≤ ([20, 21, 19, 20, 80, 20] : List ℚ).length ∧
    PPG.filterOutlierIBIs [20, 21, 19, 20, 80, 20] =
      (if PPG.madOf [20, 21, 19, 20, 80, 20] = 0 then [20, 21, 19, 20, 80, 20]
       else ([20, 21, 19, 20, 80, 20] : List ℚ).filter (fun v =>
         decide (|v - PPG.medianOf [20, 21, 19, 20, 80, 20]| ≤
           5/2 * PPG.madOf [20, 21, 19, 20, 80, 20]))) :=
  ⟨by norm_num, filterOutlierIBIs_spec.1 _ (by norm_num)⟩

/-- C3 counterexample: calculateBiomarkers is not a pure function of
(signal, samplingRate) — with the identical signal [0,0,0,0,0], rate 30
and even identical Math.random draws, two calls at clock readings 0 and
1 return different BiomarkerData records (the timestamp field is the
Date.now() reading). -/
theorem calculateBiomarkers_not_pure :
    Biomarkers.calculateBiomarkers [0, 0, 0, 0, 0] 30 id 0 (fun _ => 0) 0 ≠
      Biomarkers.calculateBiomarkers [0, 0, 0, 0, 0] 30 id 0 (fun _ => 0) 1 := by
  intro h
  have h2 := congrArg Biomarkers.BiomarkerData.timestamp h
  simp only [Biomarkers.calculateBiomarkers] at h2
  exact absurd h2 (by norm_num)

/-- C3 amended: the heartRate, sysBP and diaBP fields of
calculateBiomarkers are deterministic functions of (signal,
samplingRate) alone — they do not depend on Math.sqrt, on any
Math.random draw, or on the clock.  (The hrv, parasympatheticHealth,
wellnessValue and stressIndex fields depend on the random RR-interval
perturbation, breathingRate on a random draw in its fallback branch,
and timestamp on the clock.) -/
theorem calculateBiomarkers_core_fields_deterministic
    (signal : List ℚ) (samplingRate : ℚ) (f1 f2 : ℚ → ℚ) (r1 r2 : ℚ)
    (rr1 rr2 : ℕ → ℚ) (t1 t2 : ℚ) :
    (Biomarkers.calculateBiomarkers signal samplingRate f1 r1 rr1 t1).heartRate =
      (Biomarkers.calculateBiomarkers signal samplingRate f2 r2 rr2 t2).heartRate ∧
    (Biomarkers.calculateBiomarkers signal samplingRate f1 r1 rr1 t1).sysBP =
      (Biomarkers.calculateBiomarkers signal samplingRate f2 r2 rr2 t2).sysBP ∧
    (Biomarkers.calculateBiomarkers signal samplingRate f1 r1 rr1 t1).diaBP =
      (Biomarkers.calculateBiomarkers signal samplingRate f2 r2 rr2 t2).diaBP :=
  ⟨rfl, rfl, rfl⟩

/-- C9: the biomarker POST endpoint rejects every request whose signal
array has fewer than 5 samples with the 400 "Insufficient signal data"
response (the handler is a total function into ApiResponse — no crash),
and every 200 response was computed from a signal of length ≥ 5. -/
theorem POST_rejects_short_signal :
    (∀ (body : Api.BiomarkersRequest) (f : ℚ → ℚ) (r : ℚ) (rr : ℕ → ℚ)
       (t : ℚ) (sig : List ℚ), body.signal = some sig → sig.length < 5 →
      Api.POST body f r rr t =
        Api.ApiResponse.badRequest
          "Insufficient signal data. Need at least 5 samples.") ∧
    (∀ (body : Api.BiomarkersRequest) (f : ℚ → ℚ) (r : ℚ) (rr : ℕ → ℚ)
       (t : ℚ) (d : Biomarkers.BiomarkerData) (n : ℕ) (q : ℚ),
      Api.POST body f r rr t = Api.ApiResponse.ok d n q →
      ∃ sig, body.signal = some sig ∧ 5 ≤ sig.length ∧
        d = Biomarkers.calculateBiomarkers sig body.samplingRate f r rr t) := by
  constructor
  · intro body f r rr t sig hsig hlen
    unfold Api.POST
    rw [hsig]
    simp [hlen]
  · intro body f r rr t d n q h
    obtain ⟨osig, rate⟩ := body
    cases osig with
    | none => exact absurd h (by simp [Api.POST])
    | some sig =>
      simp only [Api.POST] at h
      by_cases hlen : sig.length < 5
      · rw [if_pos hlen] at h
        exact absurd h (by simp)
      · rw [if_neg hlen] at h
        injection h with h1 h2 h3
        exact ⟨sig, rfl, by omega, h1.symm⟩

/-- Membership after a capped history push: either an old entry, or the
newly pushed (necessarily positive) value. -/
theorem pushCap_mem (cap : ℕ) (hist : List ℚ) (v x : ℚ)
    (hx : x ∈ PPG.pushCap cap hist v) : x ∈ hist ∨ (0 < v ∧ x = v) := by
  unfold PPG.pushCap at hx
  by_cases hv : 0 < v
  · rw [if_pos hv] at hx
    simp only at hx
    split_ifs at hx with h
    · have := List.drop_subset 1 (hist ++ [v]) hx
      rcases List.mem_append.mp this with h1 | h2
      · exact Or.inl h1
      · exact Or.inr ⟨hv, List.mem_singleton.mp h2⟩
    · rcases List.mem_append.mp hx with h1 | h2
      · exact Or.inl h1
      · exact Or.inr ⟨hv, List.mem_singleton.mp h2⟩
  · rw [if_neg hv] at hx
    exact Or.inl hx

/-- Entries of a pushed history stay inside [a, b] when the history
entries were and the pushed value is 0 (dropped) or itself in [a, b]. -/
theorem pushCap_bounds (cap : ℕ) (hist : List ℚ) (v a b : ℚ)
    (hinv : ∀ x ∈ hist, a ≤ x ∧ x ≤ b) (hv : v = 0 ∨ (a ≤ v ∧ v ≤ b)) :
    ∀ x ∈ PPG.pushCap cap hist v, a ≤ x ∧ x ≤ b := by
  intro x hx
  rcases pushCap_mem cap hist v x hx with h | ⟨hpos, rfl⟩
  · exact hinv x h
  · rcases hv with rfl | h
    · exact absurd hpos (by norm_num)
    · exact h

/-- The weight sum of the exponential average is nonnegative. -/
theorem wsum_snd_nonneg (l : List ℚ) : 0 ≤ (PPG.wsum l).2 := by
  induction l with
  | nil => simp [PPG.wsum]
  | cons x xs ih => simp only [PPG.wsum]; linarith

/-- The weight sum of the exponential average is positive on a nonempty
history. -/
theorem wsum_snd_pos (l : List ℚ) (h : l ≠ []) : 0 < (PPG.wsum l).2 := by
  cases l with
  | nil => exact absurd rfl h
  | cons x xs =>
    have := wsum_snd_nonneg xs
    simp only [PPG.wsum]
    linarith

/-- Upper bound on the weighted sum from an upper bound on the entries. -/
theorem wsum_fst_le (l : List ℚ) (b : ℚ) (h : ∀ x ∈ l, x ≤ b) :
    (PPG.wsum l).1 ≤ b * (PPG.wsum l).2 := by
  induction l with
  | nil => simp [PPG.wsum]
  | cons x xs ih =>
    have hx : x ≤ b := h x (List.mem_cons_self x _)
    have hxs : (PPG.wsum xs).1 ≤ b * (PPG.wsum xs).2 :=
      ih (fun y hy => h y (List.mem_cons_of_mem x hy))
    simp only [PPG.wsum]
    nlinarith

/-- Lower bound on the weighted sum from a lower bound on the entries. -/
theorem wsum_le_fst (l : List ℚ) (a : ℚ) (h : ∀ x ∈ l, a ≤ x) :
    a * (PPG.wsum l).2 ≤ (PPG.wsum l).1 := by
  induction l with
  | nil => simp [PPG.wsum]
  | cons x xs ih =>
    have hx : a ≤ x := h x (List.mem_cons_self x _)
    have hxs : a * (PPG.wsum xs).2 ≤ (PPG.wsum xs).1 :=
      ih (fun y hy => h y (List.mem_cons_of_mem x hy))
    simp only [PPG.wsum]
    nlinarith

/-- The exponentially weighted rounded average of a nonempty history
whose entries lie in the integer band [a, b] lies in [a, b]. -/
theorem emaOut_range (a b : ℤ) (l : List ℚ) (hne : l ≠ [])
    (h : ∀ x ∈ l, (a : ℚ) ≤ x ∧ x ≤ (b : ℚ)) :
    (a : ℚ) ≤ PPG.emaOut l ∧ PPG.emaOut l ≤ (b : ℚ) := by
  unfold PPG.emaOut
  rw [if_neg (by simpa using hne)]
  have hW := wsum_snd_pos l hne
  have hle : (PPG.wsum l).1 ≤ (b : ℚ) * (PPG.wsum l).2 :=
    wsum_fst_le l b (fun x hx => (h x hx).2)
  have hge : (a : ℚ) * (PPG.wsum l).2 ≤ (PPG.wsum l).1 :=
    wsum_le_fst l a (fun x hx => (h x hx).1)
  have h1 : (a : ℚ) ≤ (PPG.wsum l).1 / (PPG.wsum l).2 :=
    (le_div_iff₀ hW).mpr hge
  have h2 : (PPG.wsum l).1 / (PPG.wsum l).2 ≤ (b : ℚ) :=
    (div_le_iff₀ hW).mpr (by linarith)
  have hb := jround_bounds a b _ h1 h2
  exact ⟨by exact_mod_cast hb.1, by exact_mod_cast hb.2⟩

/-- Upper bound on a list sum from an entrywise bound. -/
theorem list_sum_le (l : List ℚ) (b : ℚ) (h : ∀ x ∈ l, x ≤ b) :
    l.sum ≤ b * l.length := by
  induction l with
  | nil => simp
  | cons x xs ih =>
    have hx : x ≤ b := h x (List.mem_cons_self x _)
    have hxs : xs.sum ≤ b * xs.length :=
      ih (fun y hy => h y (List.mem_cons_of_mem x hy))
    simp only [List.sum_cons, List.length_cons]
    push_cast
    nlinarith

/-- Lower bound on a list sum from an entrywise bound. -/
theorem le_list_sum (l : List ℚ) (a : ℚ) (h : ∀ x ∈ l, a ≤ x) :
    a * l.length ≤ l.sum := by
  induction l with
  | nil => simp
  | cons x xs ih =>
    have hx : a ≤ x := h x (List.mem_cons_self x _)
    have hxs : a * xs.length ≤ xs.sum :=
      ih (fun y hy => h y (List.mem_cons_of_mem x hy))
    simp only [List.sum_cons, List.length_cons]
    push_cast
    nlinarith

/-- The rounded arithmetic mean of a nonempty history whose entries lie
in the integer band [a, b] lies in [a, b]. -/
theorem meanOut_range (a b : ℤ) (l : List ℚ) (hne : l ≠ [])
    (h : ∀ x ∈ l, (a : ℚ) ≤ x ∧ x ≤ (b : ℚ)) :
    (a : ℚ) ≤ PPG.meanOut l ∧ PPG.meanOut l ≤ (b : ℚ) := by
  unfold PPG.meanOut
  rw [if_neg (by simpa using hne)]
  have hL : (0 : ℚ) < l.length := by
    have := List.length_pos.mpr hne
    exact_mod_cast this
  have hle : l.sum ≤ (b : ℚ) * l.length :=
    list_sum_le l b (fun x hx => (h x hx).2)
  have hge : (a : ℚ) * l.length ≤ l.sum :=
    le_list_sum l a (fun x hx => (h x hx).1)
  have h1 : (a : ℚ) ≤ l.sum / l.length := (le_div_iff₀ hL).mpr hge
  have h2 : l.sum / l.length ≤ (b : ℚ) := (div_le_iff₀ hL).mpr (by linarith)
  have hb := jround_bounds a b _ h1 h2
  exact ⟨by exact_mod_cast hb.1, by exact_mod_cast hb.2⟩

/-- addFrame never touches the smoothing histories. -/
theorem addFrame_histories (s : PPG.PPGState) (img : PPG.ImageData)
    (roi : PPG.FaceROI) (now : ℚ) :
    (PPG.addFrame s img roi now).heartRateHistory = s.heartRateHistory ∧
    (PPG.addFrame s img roi now).breathingRateHistory =
      s.breathingRateHistory := by
  simp only [PPG.addFrame]
  split <;> exact ⟨rfl, rfl⟩

/-- addFrame keeps the five parallel buffers at equal lengths. -/
theorem addFrame_aligned (s : PPG.PPGState) (img : PPG.ImageData)
    (roi : PPG.FaceROI) (now : ℚ) (h : PPG.buffersAligned s) :
    PPG.buffersAligned (PPG.addFrame s img roi now) := by
  obtain ⟨h1, h2, h3, h4⟩ := h
  simp only [PPG.addFrame, PPG.buffersAligned]
  split <;> simp [h1, h2, h3, h4]

/-- The state side of getSmoothedHeartRate: only the heart-rate history
changes. -/
theorem getSmoothedHeartRate_fst (s : PPG.PPGState) (v : ℚ) :
    (PPG.getSmoothedHeartRate s v).1 =
      { s with heartRateHistory := PPG.pushCap 6 s.heartRateHistory v } := rfl

/-- The state side of getSmoothedBreathingRate: only the breathing-rate
history changes. -/
theorem getSmoothedBreathingRate_fst (s : PPG.PPGState) (v : ℚ) :
    (PPG.getSmoothedBreathingRate s v).1 =
      { s with breathingRateHistory :=
          PPG.pushCap 3 s.breathingRateHistory v } := rfl

/-- The state side of getSmoothedHRV: only the HRV history changes. -/
theorem getSmoothedHRV_fst (s : PPG.PPGState) (v : ℚ) :
    (PPG.getSmoothedHRV s v).1 =
      { s with hrvHistory := PPG.pushCap 5 s.hrvHistory v } := rfl

/-- A rounded value clamped into [45, 200] lies in [45, 200]. -/
theorem jround_clamp45 (q : ℚ) :
    (45 : ℚ) ≤ ((jround (max 45 (min 200 q)) : ℤ) : ℚ) ∧
    ((jround (max 45 (min 200 q)) : ℤ) : ℚ) ≤ 200 := by
  have ha : (45 : ℚ) ≤ max 45 (min 200 q) := le_max_left _ _
  have hb : max 45 (min 200 q) ≤ 200 :=
    max_le (by norm_num) (min_le_left _ _)
  have hj := jround_bounds 45 200 (max 45 (min 200 q))
    (by exact_mod_cast ha) (by exact_mod_cast hb)
  exact ⟨by exact_mod_cast hj.1, by exact_mod_cast hj.2⟩

/-- A rounded value clamped into [8, 30] lies in [8, 30]. -/
theorem jround_clamp8 (q : ℚ) :
    (8 : ℚ) ≤ ((jround (max 8 (min 30 q)) : ℤ) : ℚ) ∧
    ((jround (max 8 (min 30 q)) : ℤ) : ℚ) ≤ 30 := by
  have ha : (8 : ℚ) ≤ max 8 (min 30 q) := le_max_left _ _
  have hb : max 8 (min 30 q) ≤ 30 :=
    max_le (by norm_num) (min_le_left _ _)
  have hj := jround_bounds 8 30 (max 8 (min 30 q))
    (by exact_mod_cast ha) (by exact_mod_cast hb)
  exact ⟨by exact_mod_cast hj.1, by exact_mod_cast hj.2⟩

/-- Every exit of calculateHeartRateForWindow is either the untouched
state with result 0, or a getSmoothedHeartRate call whose argument is 0
or an integer-rounded BPM clamped into [45, 200]. -/
theorem calcHRW_cases (s : PPG.PPGState) (w : ℕ) :
    PPG.calculateHeartRateForWindow s w = (s, 0) ∨
    ∃ v : ℚ, PPG.calculateHeartRateForWindow s w =
        PPG.getSmoothedHeartRate s v ∧ (v = 0 ∨ (45 ≤ v ∧ v ≤ 200)) := by
  simp only [PPG.calculateHeartRateForWindow]
  split_ifs with h1 h2 h3 h4 h5
  · exact Or.inl rfl
  · exact Or.inr ⟨0, rfl, Or.inl rfl⟩
  · exact Or.inr ⟨0, rfl, Or.inl rfl⟩
  · exact Or.inr ⟨0, rfl, Or.inl rfl⟩
  · exact Or.inr ⟨0, rfl, Or.inl rfl⟩
  · exact Or.inr ⟨_, rfl, Or.inr (jround_clamp45 _)⟩

/-- Every exit of getBreathingRate is either the untouched state with
result 0, or a getSmoothedBreathingRate call whose argument is 0 or an
integer-rounded rate clamped into [8, 30]. -/
theorem getBR_cases (s : PPG.PPGState) :
    PPG.getBreathingRate s = (s, 0) ∨
    ∃ v : ℚ, PPG.getBreathingRate s = PPG.getSmoothedBreathingRate s v ∧
      (v = 0 ∨ (8 ≤ v ∧ v ≤ 30)) := by
  simp only [PPG.getBreathingRate]
  split_ifs with h1 h2
  · exact Or.inl rfl
  · exact Or.inr ⟨0, rfl, Or.inl rfl⟩
  · exact Or.inr ⟨_, rfl, Or.inr (jround_clamp8 _)⟩

/-- Every exit of getHRV is either the untouched state with result 0 or
a getSmoothedHRV call. -/
theorem getHRV_cases (f : ℚ → ℚ) (s : PPG.PPGState) :
    PPG.getHRV f s = (s, 0) ∨
    ∃ v : ℚ, PPG.getHRV f s = PPG.getSmoothedHRV s v := by
  simp only [PPG.getHRV]
  split_ifs with h1 h2 h3
  · exact Or.inl rfl
  · exact Or.inr ⟨0, rfl⟩
  · exact Or.inr ⟨0, rfl⟩
  · exact Or.inr ⟨_, rfl⟩

/-- The signal buffer after one addFrame: append the new sample, then
shift once the capacity is exceeded. -/
theorem addFrame_signalBuffer (s : PPG.PPGState) (img : PPG.ImageData)
    (roi : PPG.FaceROI) (now : ℚ) :
    (PPG.addFrame s img roi now).signalBuffer =
      if 1800 < s.signalBuffer.length + 1 then
        (s.signalBuffer ++ [PPG.extractPPGSignal img roi]).drop 1
      else s.signalBuffer ++ [PPG.extractPPGSignal img roi] := by
  simp only [PPG.addFrame, PPG.maxBufferSize, List.length_append,
    List.length_singleton]
  split <;> rfl

/-- The signal buffer after any addFrame sequence from a fresh session
is exactly the last (at most) 1800 submitted samples, in order. -/
theorem runAddFrames_signalBuffer (fs : List PPG.Frame) :
    (PPG.runAddFrames PPG.initState fs).signalBuffer =
      (fs.map PPG.sampleOf).drop (fs.length - 1800) := by
  induction fs using List.reverseRecOn with
  | nil => rfl
  | append_singleton fs f ih =>
    have h1 : PPG.runAddFrames PPG.initState (fs ++ [f]) =
        PPG.addFrame (PPG.runAddFrames PPG.initState fs) f.1 f.2.1 f.2.2 := by
      simp [PPG.runAddFrames]
    have hx : PPG.extractPPGSignal f.1 f.2.1 = PPG.sampleOf f := rfl
    rw [h1, addFrame_signalBuffer, ih, hx]
    have hL : (fs.map PPG.sampleOf).length = fs.length := by simp
    by_cases hn : fs.length < 1800
    · rw [if_neg (by rw [List.length_drop, hL]; omega)]
      rw [Nat.sub_eq_zero_of_le (by omega), List.drop_zero,
        Nat.sub_eq_zero_of_le (by simp; omega), List.drop_zero]
      simp
    · rw [if_pos (by rw [List.length_drop, hL]; omega)]
      rw [← List.drop_append_of_le_length (by omega), List.drop_drop]
      have h2 : (fs ++ [f]).length - 1800 = (fs.length - 1800) + 1 := by
        simp; omega
      rw [h2]
      simp

/-- Every session operation preserves the smoothing-history invariant. -/
theorem histInv_step (s : PPG.PPGState) (op : PPG.SessionOp)
    (h : PPG.histInv s) : PPG.histInv (PPG.stepOp s op) := by
  obtain ⟨hHR, hBR⟩ := h
  cases op with
  | frame img roi now =>
    have := addFrame_histories s img roi now
    exact ⟨this.1 ▸ hHR, this.2 ▸ hBR⟩
  | queryHR =>
    rcases calcHRW_cases s PPG.heartRateWindow10s with hc | ⟨v, hc, hv⟩ <;>
      simp only [PPG.stepOp, PPG.getHeartRate, PPG.getHeartRate10s, hc]
    · exact ⟨hHR, hBR⟩
    · rw [getSmoothedHeartRate_fst]
      exact ⟨pushCap_bounds 6 s.heartRateHistory v 45 200 hHR hv, hBR⟩
  | queryHR4 =>
    rcases calcHRW_cases s PPG.heartRateWindow4s with hc | ⟨v, hc, hv⟩ <;>
      simp only [PPG.stepOp, PPG.getHeartRate4s, hc]
    · exact ⟨hHR, hBR⟩
    · rw [getSmoothedHeartRate_fst]
      exact ⟨pushCap_bounds 6 s.heartRateHistory v 45 200 hHR hv, hBR⟩
  | queryBR =>
    rcases getBR_cases s with hc | ⟨v, hc, hv⟩ <;>
      simp only [PPG.stepOp, hc]
    · exact ⟨hHR, hBR⟩
    · rw [getSmoothedBreathingRate_fst]
      exact ⟨hHR, pushCap_bounds 3 s.breathingRateHistory v 8 30 hBR hv⟩
  | queryHRV f =>
    rcases getHRV_cases f s with hc | ⟨v, hc⟩ <;>
      simp only [PPG.stepOp, hc]
    · exact ⟨hHR, hBR⟩
    · rw [getSmoothedHRV_fst]
      exact ⟨hHR, hBR⟩
  | doReset =>
    exact ⟨by simp [PPG.stepOp, PPG.reset, PPG.initState],
      by simp [PPG.stepOp, PPG.reset, PPG.initState]⟩

/-- Every session operation preserves buffer alignment. -/
theorem buffersAligned_step (s : PPG.PPGState) (op : PPG.SessionOp)
    (h : PPG.buffersAligned s) : PPG.buffersAligned (PPG.stepOp s op) := by
  cases op with
  | frame img roi now => exact addFrame_aligned s img roi now h
  | queryHR =>
    rcases calcHRW_cases s PPG.heartRateWindow10s with hc | ⟨v, hc, _⟩ <;>
      simp only [PPG.stepOp, PPG.getHeartRate, PPG.getHeartRate10s, hc]
    · exact h
    · rw [getSmoothedHeartRate_fst]; exact h
  | queryHR4 =>
    rcases calcHRW_cases s PPG.heartRateWindow4s with hc | ⟨v, hc, _⟩ <;>
      simp only [PPG.stepOp, PPG.getHeartRate4s, hc]
    · exact h
    · rw [getSmoothedHeartRate_fst]; exact h
  | queryBR =>
    rcases getBR_cases s with hc | ⟨v, hc, _⟩ <;> simp only [PPG.stepOp, hc]
    · exact h
    · rw [getSmoothedBreathingRate_fst]; exact h
  | queryHRV f =>
    rcases getHRV_cases f s with hc | ⟨v, hc⟩ <;> simp only [PPG.stepOp, hc]
    · exact h
    · rw [getSmoothedHRV_fst]; exact h
  | doReset =>
    exact ⟨rfl, rfl, rfl, rfl⟩

/-- The smoothing-history invariant holds along every operation
sequence. -/
theorem histInv_runOps (ops : List PPG.SessionOp) :
    ∀ s : PPG.PPGState, PPG.histInv s → PPG.histInv (PPG.runOps s ops) := by
  induction ops with
  | nil => exact fun s h => h
  | cons op ops ih =>
    intro s h
    exact ih (PPG.stepOp s op) (histInv_step s op h)

/-- Buffer alignment holds along every operation sequence. -/
theorem buffersAligned_runOps (ops : List PPG.SessionOp) :
    ∀ s : PPG.PPGState, PPG.buffersAligned s →
      PPG.buffersAligned (PPG.runOps s ops) := by
  induction ops with
  | nil => exact fun s h => h
  | cons op ops ih =>
    intro s h
    exact ih (PPG.stepOp s op) (buffersAligned_step s op h)

/-- Under the history invariant, getHeartRate returns 0 or a value in
[45, 200]. -/
theorem getHeartRate_out (s : PPG.PPGState)
    (h : ∀ x ∈ s.heartRateHistory, 45 ≤ x ∧ x ≤ 200) :
    (PPG.getHeartRate s).2 = 0 ∨
      (45 ≤ (PPG.getHeartRate s).2 ∧ (PPG.getHeartRate s).2 ≤ 200) := by
  rcases calcHRW_cases s PPG.heartRateWindow10s with hc | ⟨v, hc, hv⟩ <;>
    simp only [PPG.getHeartRate, PPG.getHeartRate10s, hc]
  · exact Or.inl trivial
  · show PPG.emaOut (PPG.pushCap 6 s.heartRateHistory v) = 0 ∨ _
    by_cases hne : PPG.pushCap 6 s.heartRateHistory v = []
    · exact Or.inl (by simp [PPG.emaOut, hne])
    · right
      have hb := pushCap_bounds 6 s.heartRateHistory v 45 200 h hv
      have := emaOut_range 45 200 _ hne
        (by intro x hx; exact_mod_cast hb x hx)
      exact ⟨by exact_mod_cast this.1, by exact_mod_cast this.2⟩

/-- Under the history invariant, getBreathingRate returns 0 or a value
in [8, 30]. -/
theorem getBreathingRate_out (s : PPG.PPGState)
    (h : ∀ x ∈ s.breathingRateHistory, 8 ≤ x ∧ x ≤ 30) :
    (PPG.getBreathingRate s).2 = 0 ∨
      (8 ≤ (PPG.getBreathingRate s).2 ∧ (PPG.getBreathingRate s).2 ≤ 30) := by
  rcases getBR_cases s with hc | ⟨v, hc, hv⟩ <;> simp only [hc]
  · exact Or.inl trivial
  · show PPG.meanOut (PPG.pushCap 3 s.breathingRateHistory v) = 0 ∨ _
    by_cases hne : PPG.pushCap 3 s.breathingRateHistory v = []
    · exact Or.inl (by simp [PPG.meanOut, hne])
    · right
      have hb := pushCap_bounds 3 s.breathingRateHistory v 8 30 h hv
      have := meanOut_range 8 30 _ hne
        (by intro x hx; exact_mod_cast hb x hx)
      exact ⟨by exact_mod_cast this.1, by exact_mod_cast this.2⟩

/-- Inserting into a positively scaled sorted list commutes with scaling. -/
theorem sortInsert_map_mul (c : ℚ) (hc : 0 < c) (x : ℚ) (l : List ℚ) :
    sortInsert (c * x) (l.map (fun v => c * v)) =
      (sortInsert x l).map (fun v => c * v) := by
  induction l with
  | nil => rfl
  | cons y ys ih =>
    simp only [List.map_cons, sortInsert]
    by_cases h : x ≤ y
    · rw [if_pos ((mul_le_mul_left hc).mpr h), if_pos h, List.map_cons,
        List.map_cons]
    · rw [if_neg (fun hc2 => h ((mul_le_mul_left hc).mp hc2)), if_neg h,
        List.map_cons, ih]

/-- Sorting commutes with multiplication by a positive constant. -/
theorem jsort_map_mul (c : ℚ) (hc : 0 < c) (l : List ℚ) :
    jsort (l.map (fun v => c * v)) = (jsort l).map (fun v => c * v) := by
  induction l with
  | nil => rfl
  | cons x xs ih =>
    simp only [List.map_cons, jsort, List.foldr_cons] at *
    rw [ih, sortInsert_map_mul c hc]

/-- getD with default 0 commutes with multiplication by a constant. -/
theorem getD_map_mul (c : ℚ) (l : List ℚ) (n : ℕ) :
    (l.map (fun v => c * v)).getD n 0 = c * l.getD n 0 := by
  simp only [List.getD_eq_getElem?_getD, List.getElem?_map]
  cases l[n]? with
  | none => simp
  | some a => simp

/-- C5 counterexample: the breathing peak detector compares the window
against the fixed constant 0.5 (ppg-processor.ts line 597), not against
a percentile of the window, so its acceptance does not scale with the
window: scaling the window [0.1, 0.3, 0.1] by 10 changes the detected
peak set from none to one. -/
theorem breathing_detector_fixed_threshold :
    ([1/10, 3/10, 1/10] : List ℚ).map (fun v => 10 * v) = [1, 3, 1] ∧
    PPG.detectBreathingPeaks [1/10, 3/10, 1/10] 1 = [] ∧
    PPG.detectBreathingPeaks [1, 3, 1] 1 = [1] := by
  refine ⟨by norm_num, ?_, ?_⟩ <;>
    norm_num [PPG.detectBreathingPeaks, PPG.breathingScan, PPG.isBreathingPeak,
      List.getD]

/-- C5 amended: only the heart-rate peak detector computes its
acceptance threshold as a percentile of the window — the 50th percentile
`sorted[floor(length * 0.5)]` — and that threshold scales under positive
scaling of the window; the breathing peak detector instead uses the
fixed constant 0.5 on the normalized window. -/
theorem peakThreshold_percentile_scales (c : ℚ) (w : List ℚ) (hc : 0 < c) :
    PPG.peakThreshold w = (jsort w).getD (w.length / 2) 0 ∧
    PPG.peakThreshold (w.map (fun v => c * v)) = c * PPG.peakThreshold w := by
  refine ⟨rfl, ?_⟩
  unfold PPG.peakThreshold
  rw [jsort_map_mul c hc, List.length_map, getD_map_mul]

/-- Witness for the amended C5: scaling the window [1, 2] by 2 doubles
the heart-rate peak threshold. -/
theorem peakThreshold_percentile_scales_witness :
    (0 : ℚ) < 2 ∧
    PPG.peakThreshold (([1, 2] : List ℚ).map (fun v => 2 * v)) =
      2 * PPG.peakThreshold [1, 2] :=
  ⟨by norm_num, (peakThreshold_percentile_scales 2 [1, 2] (by norm_num)).2⟩

/-- C7 counterexample: with heart-rate history [125, 100] the current
smoothed value (the exponentially weighted average getSmoothedHeartRate
reports) is round(325/3) = 108, so the candidate 135 deviates from it by
27 > 25 BPM; yet isPhysiologicallyValid accepts 135 (the code compares
against the plain mean 112.5, deviation 22.5) and the value is inserted
into the history. -/
theorem deviation_checked_against_mean_not_smoothed :
    25 < |(135 : ℚ) -
        (PPG.getSmoothedHeartRate
          { PPG.initState with heartRateHistory := [125, 100] } 0).2| ∧
    PPG.isPhysiologicallyValid
        { PPG.initState with heartRateHistory := [125, 100] } 135 = true ∧
    (PPG.getSmoothedHeartRate
        { PPG.initState with heartRateHistory := [125, 100] }
        135).1.heartRateHistory = [125, 100, 135] := by
  refine ⟨?_, ?_, ?_⟩
  · norm_num [PPG.getSmoothedHeartRate, PPG.pushCap, PPG.emaOut, PPG.wsum,
      jround, Int.floor_eq_iff]
  · norm_num [PPG.isPhysiologicallyValid, List.sum_cons, List.sum_nil, abs_le]
  · norm_num [PPG.getSmoothedHeartRate, PPG.pushCap]

/-- C7 amended: a newly computed heart-rate value whose deviation from
the arithmetic mean of the heart-rate history exceeds 25 BPM is rejected
by isPhysiologicallyValid, and the rejection path
(getSmoothedHeartRate 0) leaves the session state — in particular the
heart-rate history — exactly unchanged, returning the smoothed value of
the untouched history. -/
theorem mean_deviation_rejected (s : PPG.PPGState) (v : ℚ)
    (hne : s.heartRateHistory ≠ [])
    (hdev : 25 < |v - s.heartRateHistory.sum /
      (s.heartRateHistory.length : ℚ)|) :
    PPG.isPhysiologicallyValid s v = false ∧
    (PPG.getSmoothedHeartRate s 0).1 = s ∧
    (PPG.getSmoothedHeartRate s 0).2 = PPG.emaOut s.heartRateHistory := by
  refine ⟨?_, ?_, ?_⟩
  · unfold PPG.isPhysiologicallyValid
    by_cases h1 : v < 45 ∨ 200 < v
    · rw [if_pos h1]
    · rw [if_neg h1, if_pos (List.length_pos.mpr hne), if_pos hdev]
  · simp [PPG.getSmoothedHeartRate, PPG.pushCap]
  · simp [PPG.getSmoothedHeartRate, PPG.pushCap]

/-- Witness for the amended C7: with history [100], the candidate 200
(deviation 100 from the mean) is rejected and the state is untouched. -/
theorem mean_deviation_rejected_witness :
    (({ PPG.initState with heartRateHistory := [100] } :
        PPG.PPGState).heartRateHistory ≠ [] ∧
      25 < |(200 : ℚ) -
        ({ PPG.initState with heartRateHistory := [100] } :
          PPG.PPGState).heartRateHistory.sum /
        (({ PPG.initState with heartRateHistory := [100] } :
          PPG.PPGState).heartRateHistory.length : ℚ)|) ∧
    PPG.isPhysiologicallyValid
      { PPG.initState with heartRateHistory := [100] } 200 = false ∧
    (PPG.getSmoothedHeartRate
      { PPG.initState with heartRateHistory := [100] } 0).1 =
      { PPG.initState with heartRateHistory := [100] } ∧
    (PPG.getSmoothedHeartRate
      { PPG.initState with heartRateHistory := [100] } 0).2 =
      PPG.emaOut ({ PPG.initState with heartRateHistory := [100] } :
        PPG.PPGState).heartRateHistory :=
  ⟨⟨by simp, by norm_num⟩,
    mean_deviation_rejected _ 200 (by simp) (by norm_num)⟩

/-- Witness for C9: a concrete 3-sample request is rejected with the
insufficient-data error. -/
theorem POST_rejects_short_signal_witness :
    (Api.BiomarkersRequest.mk (some [1, 2, 3]) 30).signal = some [1, 2, 3] ∧
    ([1, 2, 3] : List ℚ).length < 5 ∧
    Api.POST (Api.BiomarkersRequest.mk (some [1, 2, 3]) 30) id 0 (fun _ => 0) 0 =
      Api.ApiResponse.badRequest
        "Insufficient signal data. Need at least 5 samples." :=
  ⟨rfl, by norm_num,
    POST_rejects_short_signal.1 _ id 0 (fun _ => 0) 0 [1, 2, 3] rfl (by norm_num)⟩

/-- Fuel adequacy for the heart-rate peak scan: any two fuels covering
the remaining scan range give the same result, so the fuel is a pure
termination device and `signal.length + 1` models the source loop
exactly. -/
theorem scanPeaks_fuel (sg : List ℚ) (t : ℚ) (d : ℕ) :
    ∀ (f1 f2 i : ℕ) (last : ℤ), sg.length ≤ i + f1 → sg.length ≤ i + f2 →
      PPG.scanPeaks sg t d f1 i last = PPG.scanPeaks sg t d f2 i last := by
  intro f1
  induction f1 with
  | zero =>
    intro f2 i last h1 h2
    cases f2 with
    | zero => rfl
    | succ f2 =>
      simp only [PPG.scanPeaks]
      rw [if_neg (by omega)]
  | succ f1 ih =>
    intro f2 i last h1 h2
    cases f2 with
    | zero =>
      simp only [PPG.scanPeaks]
      rw [if_neg (by omega)]
    | succ f2 =>
      simp only [PPG.scanPeaks]
      by_cases hg : i + 3 < sg.length
      · rw [if_pos hg, if_pos hg]
        by_cases hc : PPG.isPeakCandidate sg t i = true ∧ last + d ≤ (i : ℤ)
        · rw [if_pos hc, if_pos hc, ih f2 (i + 1) (i : ℤ) (by omega) (by omega)]
        · rw [if_neg hc, if_neg hc]
          exact ih f2 (i + 1) last (by omega) (by omega)
      · rw [if_neg hg, if_neg hg]

/-- Fuel adequacy for the breathing peak scan, as in `scanPeaks_fuel`. -/
theorem breathingScan_fuel (sg : List ℚ) (d : ℕ) :
    ∀ (f1 f2 i : ℕ), sg.length ≤ i + f1 → sg.length ≤ i + f2 →
      PPG.breathingScan sg d f1 i = PPG.breathingScan sg d f2 i := by
  intro f1
  induction f1 with
  | zero =>
    intro f2 i h1 h2
    cases f2 with
    | zero => rfl
    | succ f2 =>
      simp only [PPG.breathingScan]
      rw [if_neg (by omega)]
  | succ f1 ih =>
    intro f2 i h1 h2
    cases f2 with
    | zero =>
      simp only [PPG.breathingScan]
      rw [if_neg (by omega)]
    | succ f2 =>
      simp only [PPG.breathingScan]
      by_cases hg : i + d < sg.length
      · rw [if_pos hg, if_pos hg]
        by_cases hc : 1/2 < sg.getD i 0 ∧ PPG.isBreathingPeak sg d i = true
        · rw [if_pos hc, if_pos hc,
            ih f2 (i + d + 1) (by omega) (by omega)]
        · rw [if_neg hc, if_neg hc]
          exact ih f2 (i + 1) (by omega) (by omega)
      · rw [if_neg hg, if_neg hg]

/-- Every index the heart-rate peak scan emits is at least the scan
position and at least minDist beyond the last accepted peak. -/
theorem scanPeaks_mem_bounds (sg : List ℚ) (t : ℚ) (d : ℕ) :
    ∀ (fuel i : ℕ) (last : ℤ) (p : ℕ), p ∈ PPG.scanPeaks sg t d fuel i last →
      i ≤ p ∧ last + d ≤ (p : ℤ) := by
  intro fuel
  induction fuel with
  | zero => intro i last p hp; simp [PPG.scanPeaks] at hp
  | succ fuel ih =>
    intro i last p hp
    simp only [PPG.scanPeaks] at hp
    split_ifs at hp with h1 h2
    · rcases List.mem_cons.mp hp with rfl | hp2
      · exact ⟨le_refl _, h2.2⟩
      · obtain ⟨ha, hb⟩ := ih (i + 1) (i : ℤ) p hp2
        have ha2 : (i : ℤ) + 1 ≤ (p : ℤ) := by exact_mod_cast ha
        exact ⟨by omega, by omega⟩
    · obtain ⟨ha, hb⟩ := ih (i + 1) last p hp
      exact ⟨by omega, hb⟩
    · simp at hp

/-- The heart-rate peak scan emits a strictly increasing sequence with
consecutive gaps of at least minDist. -/
theorem scanPeaks_chain (sg : List ℚ) (t : ℚ) (d : ℕ) :
    ∀ (fuel i : ℕ) (last : ℤ),
      (PPG.scanPeaks sg t d fuel i last).Chain'
        (fun a b => a < b ∧ a + d ≤ b) := by
  intro fuel
  induction fuel with
  | zero => intro i last; simp [PPG.scanPeaks]
  | succ fuel ih =>
    intro i last
    simp only [PPG.scanPeaks]
    split_ifs with h1 h2
    · refine List.chain'_cons'.mpr ⟨?_, ih (i + 1) (i : ℤ)⟩
      intro b hb
      have hmem : b ∈ PPG.scanPeaks sg t d fuel (i + 1) (i : ℤ) :=
        List.mem_of_mem_head? hb
      obtain ⟨ha, hbnd⟩ := scanPeaks_mem_bounds sg t d fuel (i + 1) (i : ℤ) b hmem
      have hbnd2 : i + d ≤ b := by exact_mod_cast hbnd
      exact ⟨by omega, hbnd2⟩
    · exact ih (i + 1) last
    · simp

/-- Every index the breathing peak scan emits is at least the scan
position. -/
theorem breathingScan_mem_bounds (sg : List ℚ) (d : ℕ) :
    ∀ (fuel i p : ℕ), p ∈ PPG.breathingScan sg d fuel i → i ≤ p := by
  intro fuel
  induction fuel with
  | zero => intro i p hp; simp [PPG.breathingScan] at hp
  | succ fuel ih =>
    intro i p hp
    simp only [PPG.breathingScan] at hp
    split_ifs at hp with h1 h2
    · rcases List.mem_cons.mp hp with rfl | hp2
      · exact le_refl _
      · have := ih (i + d + 1) p hp2
        omega
    · have := ih (i + 1) p hp
      omega
    · simp at hp

/-- The breathing peak scan emits a strictly increasing sequence with
consecutive gaps of at least minDist (in fact minDist + 1, because of
the `i += minPeakDistance` skip after an accepted peak). -/
theorem breathingScan_chain (sg : List ℚ) (d : ℕ) :
    ∀ (fuel i : ℕ),
      (PPG.breathingScan sg d fuel i).Chain'
        (fun a b => a < b ∧ a + d ≤ b) := by
  intro fuel
  induction fuel with
  | zero => intro i; simp [PPG.breathingScan]
  | succ fuel ih =>
    intro i
    simp only [PPG.breathingScan]
    split_ifs with h1 h2
    · refine List.chain'_cons'.mpr ⟨?_, ih (i + d + 1)⟩
      intro b hb
      have hmem : b ∈ PPG.breathingScan sg d fuel (i + d + 1) :=
        List.mem_of_mem_head? hb
      have := breathingScan_mem_bounds sg d fuel (i + d + 1) b hmem
      exact ⟨by omega, by omega⟩
    · exact ih (i + 1)
    · simp

/-- C4: both peak detectors return strictly increasing index sequences
whose consecutive elements are separated by at least the minimum peak
distance — 9 samples for detectPeaksAdvanced (floor(30 fps × 0.3 s),
the 200 BPM physiological ceiling) and the caller-supplied
minPeakDistance for detectBreathingPeaks (60 samples = 2 s at the
call site, the 30 breaths/min ceiling). -/
theorem peak_minimum_distance :
    (∀ signal : List ℚ,
      (PPG.detectPeaksAdvanced signal).Chain' (fun a b => a < b ∧ a + 9 ≤ b)) ∧
    (∀ (signal : List ℚ) (d : ℕ),
      (PPG.detectBreathingPeaks signal d).Chain'
        (fun a b => a < b ∧ a + d ≤ b)) := by
  constructor
  · intro signal
    unfold PPG.detectPeaksAdvanced
    split_ifs with h
    · simp
    · exact scanPeaks_chain signal (PPG.peakThreshold signal) 9 _ 3 (-9)
  · intro signal d
    exact breathingScan_chain signal d _ d

/-- C1: after any sequence of addFrame calls on a fresh session the
buffer size is at most the 1800-sample capacity, and the signal buffer
is exactly the most recent (at most) 1800 submitted samples in
submission order — oldest-first FIFO eviction.  Every prefix of a call
sequence is itself a call sequence, so this covers the state after each
call. -/
theorem buffer_capacity_fifo (frames : List PPG.Frame) :
    PPG.getBufferSize (PPG.runAddFrames PPG.initState frames) ≤ 1800 ∧
    (PPG.runAddFrames PPG.initState frames).signalBuffer =
      (frames.map PPG.sampleOf).drop (frames.length - 1800) := by
  refine ⟨?_, runAddFrames_signalBuffer frames⟩
  rw [PPG.getBufferSize, runAddFrames_signalBuffer frames, List.length_drop,
    List.length_map]
  omega

/-- C2: after any sequence of session operations (frame submissions,
metric queries — which mutate the smoothing histories — and resets),
getHeartRate() returns 0 or a value in [45, 200] and getBreathingRate()
returns 0 or a value in [8, 30]. -/
theorem rate_clamping (ops : List PPG.SessionOp) :
    ((PPG.getHeartRate (PPG.runOps PPG.initState ops)).2 = 0 ∨
      (45 ≤ (PPG.getHeartRate (PPG.runOps PPG.initState ops)).2 ∧
        (PPG.getHeartRate (PPG.runOps PPG.initState ops)).2 ≤ 200)) ∧
    ((PPG.getBreathingRate (PPG.runOps PPG.initState ops)).2 = 0 ∨
      (8 ≤ (PPG.getBreathingRate (PPG.runOps PPG.initState ops)).2 ∧
        (PPG.getBreathingRate (PPG.runOps PPG.initState ops)).2 ≤ 30)) := by
  have hinv : PPG.histInv (PPG.runOps PPG.initState ops) :=
    histInv_runOps ops PPG.initState ⟨by simp [PPG.initState], by simp [PPG.initState]⟩
  exact ⟨getHeartRate_out _ hinv.1, getBreathingRate_out _ hinv.2⟩

/-- C10: after any sequence of session operations the five parallel
buffers — signalBuffer, rBuffer, gBuffer, bBuffer, timestampBuffer —
have equal lengths (this includes in particular every interleaving of
addFrame and reset calls). -/
theorem parallel_buffers_aligned (ops : List PPG.SessionOp) :
    PPG.buffersAligned (PPG.runOps PPG.initState ops) :=
  buffersAligned_runOps ops PPG.initState ⟨rfl, rfl, rfl, rfl⟩

end FaceVital
